import Mathlib

/-!
Shallow embedding of the workspace/page data-sync core of the repository.

The repository contains two variants of the sync core:
* the pages variant (src/src/contexts/WorkspaceContext.tsx), modelled in
  namespace `PagesCtx`;
* the content-items variant (src/unnamed/part_001), modelled in namespace
  `ItemsCtx`.

Remote calls are modelled by an explicit `ok : Bool` argument: `ok = true`
means the remote call returns no error (and the modelled remote store is
mutated), `ok = false` means the call returns an error, in which case the
function follows the source's catch branch.  Identifier generation
(`uuidv4()`) and timestamps (`new Date().toISOString()`) are modelled as
explicit arguments.  Toasts, console logging and router navigation have no
effect on the data model and are omitted.
-/

namespace PagesCtx

/-- Attachment record of the pages variant (its `type` field is always the
string "image" and is omitted). -/
structure Attachment where
  id : String
  url : String
  name : String
  createdAt : String
deriving Repr, DecidableEq

/-- Page record of the pages variant. The optional `isPublic` flag of the
TS type defaults to `false` wherever it is read, so it is modelled as a
`Bool`. -/
structure Page where
  id : String
  title : String
  content : String
  createdAt : String
  attachments : List Attachment
  isPublic : Bool
deriving Repr, DecidableEq

/-- Workspace record of the pages variant (the unused `items : string[]`
field is omitted; `currentPageId` is the optional selected-page id). -/
structure Workspace where
  id : String
  name : String
  createdAt : String
  pages : List Page
  currentPageId : Option String
  isPublic : Bool
deriving Repr, DecidableEq

/-- Row of the remote `workspaces` table as the sync core writes it. -/
structure WorkspaceRow where
  id : String
  name : String
  userId : String
  isPublic : Bool
deriving Repr, DecidableEq

/-- Row of the remote `pages` table as the sync core writes it. -/
structure PageRow where
  id : String
  workspaceId : String
  title : String
  content : String
  isPublic : Bool
deriving Repr, DecidableEq

/-- Row of the remote `attachments` table as the sync core writes it. -/
structure AttachmentRow where
  id : String
  pageId : String
  url : String
  name : String
  kind : String
deriving Repr, DecidableEq

/-- The remote store: the three tables the pages variant touches. -/
structure Remote where
  workspaces : List WorkspaceRow
  pages : List PageRow
  attachments : List AttachmentRow
deriving Repr, DecidableEq

/-- Provider state of the pages variant: the `workspaces` and
`currentWorkspace` React states, together with the modelled remote store. -/
structure AppState where
  workspaces : List Workspace
  currentWorkspace : Option Workspace
  remote : Remote
deriving Repr, DecidableEq

/-- The user id hard-coded into `createWorkspace`
(src/src/contexts/WorkspaceContext.tsx line 215). -/
def hardcodedUserId : String := "3eb91ee4-dbcc-4691-a83a-3e5c0a364f09"

/-- `selectWorkspace` (WorkspaceContext.tsx lines 287-290): sets
`currentWorkspace` to the first workspace with the given id, or `null`
(`none`) when there is none.  Purely local. -/
def selectWorkspace (st : AppState) (id : String) : AppState :=
  { st with currentWorkspace := st.workspaces.find? (fun w => w.id == id) }

/-- `navigateToWorkspace` (WorkspaceContext.tsx lines 722-725): selects the
workspace; the router navigation has no effect on the data model. -/
def navigateToWorkspace (st : AppState) (id : String) : AppState :=
  selectWorkspace st id

/-- `createWorkspace` (WorkspaceContext.tsx lines 200-231): builds the new
workspace, issues the remote insert first, and only on success appends it
locally and navigates to it.  On remote error the catch branch only toasts.
There is no name validation and no identity check in this variant. -/
def createWorkspace (ok : Bool) (st : AppState) (name newId now : String) :
    AppState :=
  let newWorkspace : Workspace :=
    { id := newId, name := name, createdAt := now, pages := [],
      currentPageId := none, isPublic := false }
  if ok then
    let st1 : AppState :=
      { st with
        remote := { st.remote with
          workspaces := st.remote.workspaces ++
            [{ id := newId, name := name, userId := hardcodedUserId,
               isPublic := false }] },
        workspaces := st.workspaces ++ [newWorkspace] }
    navigateToWorkspace st1 newId
  else
    st

/-- `renameWorkspace` (WorkspaceContext.tsx lines 234-259): remote update
first, then local map.  The `currentWorkspace` mirror is not touched in
this variant. -/
def renameWorkspace (ok : Bool) (st : AppState) (id newName : String) :
    AppState :=
  if ok then
    { st with
      remote := { st.remote with
        workspaces := st.remote.workspaces.map (fun r =>
          if r.id == id then { r with name := newName } else r) },
      workspaces := st.workspaces.map (fun w =>
        if w.id == id then { w with name := newName } else w) }
  else st

/-- `deleteWorkspace` (WorkspaceContext.tsx lines 262-284): remote delete
first, then local filter; clears the selection when the deleted workspace
was current. -/
def deleteWorkspace (ok : Bool) (st : AppState) (id : String) : AppState :=
  if ok then
    let st1 : AppState :=
      { st with
        remote := { st.remote with
          workspaces := st.remote.workspaces.filter (fun r => r.id != id) },
        workspaces := st.workspaces.filter (fun w => w.id != id) }
    match st.currentWorkspace with
    | some cw =>
        if cw.id == id then { st1 with currentWorkspace := none } else st1
    | none => st1
  else st

/-- `createPage` (WorkspaceContext.tsx lines 292-337): remote insert first;
on success appends the page to the matching workspace, auto-selects it and
returns its id; on error returns the empty-string sentinel with no local
change. -/
def createPage (ok : Bool) (st : AppState)
    (workspaceId title newPageId now : String) : AppState × String :=
  let newPage : Page :=
    { id := newPageId, title := title, content := "", createdAt := now,
      attachments := [], isPublic := false }
  if ok then
    ({ st with
       remote := { st.remote with
         pages := st.remote.pages ++
           [{ id := newPageId, workspaceId := workspaceId, title := title,
              content := "", isPublic := false }] },
       workspaces := st.workspaces.map (fun w =>
         if w.id == workspaceId then
           { w with pages := w.pages ++ [newPage],
                    currentPageId := some newPageId }
         else w) },
     newPageId)
  else (st, "")

/-- A `Partial<Page>` update restricted to the fields the sync core
forwards remotely: a field is `some` exactly when it is present in the
update object. -/
structure PageUpdates where
  title : Option String
  content : Option String
  isPublic : Option Bool
deriving Repr, DecidableEq

/-- The object spread `{ ...page, ...updates }` of `updatePage`: fields
present in the update override the page's fields. -/
def applyPageUpdates (u : PageUpdates) (p : Page) : Page :=
  { p with
    title := u.title.getD p.title,
    content := u.content.getD p.content,
    isPublic := u.isPublic.getD p.isPublic }

/-- The remote payload of `updatePage` (WorkspaceContext.tsx lines
364-375) applied to a row: only fields present (`!== undefined`) in the
update are written. -/
def applyPageRowUpdates (u : PageUpdates) (r : PageRow) : PageRow :=
  { r with
    title := u.title.getD r.title,
    content := u.content.getD r.content,
    isPublic := u.isPublic.getD r.isPublic }

/-- `updatePage` (WorkspaceContext.tsx lines 339-390): the local mutation
is applied first (optimistically, inside the try block before the remote
call), so it happens whether or not the remote call succeeds; the remote
rows are updated only on success, and the catch branch does not roll the
local mutation back. -/
def updatePage (ok : Bool) (st : AppState) (workspaceId pageId : String)
    (u : PageUpdates) : AppState :=
  let localWs := st.workspaces.map (fun w =>
    if w.id == workspaceId then
      { w with pages := w.pages.map (fun p =>
          if p.id == pageId then applyPageUpdates u p else p) }
    else w)
  if ok then
    { st with
      workspaces := localWs,
      remote := { st.remote with
        pages := st.remote.pages.map (fun r =>
          if r.id == pageId then applyPageRowUpdates u r else r) } }
  else
    { st with workspaces := localWs }

/-- The per-workspace step of `deletePage` (WorkspaceContext.tsx lines
400-415): filter the page out and recompute `currentPageId` exactly as the
source does. -/
def deletePageWs (pageId : String) (w : Workspace) : Workspace :=
  let updatedPages := w.pages.filter (fun p => p.id != pageId)
  let updatedCurrent : Option String :=
    if w.currentPageId == some pageId then
      match updatedPages with
      | [] => none
      | p :: _ => some p.id
    else w.currentPageId
  { w with pages := updatedPages, currentPageId := updatedCurrent }

/-- `deletePage` (WorkspaceContext.tsx lines 392-422): remote delete
first; on success the matching workspace is rewritten by `deletePageWs`;
on error nothing changes locally. -/
def deletePage (ok : Bool) (st : AppState) (workspaceId pageId : String) :
    AppState :=
  if ok then
    { st with
      remote := { st.remote with
        pages := st.remote.pages.filter (fun r => r.id != pageId) },
      workspaces := st.workspaces.map (fun w =>
        if w.id == workspaceId then deletePageWs pageId w else w) }
  else st

/-- `selectPage` (WorkspaceContext.tsx lines 424-435): sets the matching
workspace's `currentPageId` to the given page id unconditionally — no
membership check is performed.  Purely local. -/
def selectPage (st : AppState) (workspaceId pageId : String) : AppState :=
  { st with
    workspaces := st.workspaces.map (fun w =>
      if w.id == workspaceId then { w with currentPageId := some pageId }
      else w) }

/-- `addAttachment` (WorkspaceContext.tsx lines 437-489): remote insert
first; on success appends the attachment to the matching page. -/
def addAttachment (ok : Bool) (st : AppState)
    (workspaceId pageId imageData name newAttId now : String) : AppState :=
  let newAttachment : Attachment :=
    { id := newAttId, url := imageData, name := name, createdAt := now }
  if ok then
    { st with
      remote := { st.remote with
        attachments := st.remote.attachments ++
          [{ id := newAttId, pageId := pageId, url := imageData,
             name := name, kind := "image" }] },
      workspaces := st.workspaces.map (fun w =>
        if w.id == workspaceId then
          { w with pages := w.pages.map (fun p =>
              if p.id == pageId then
                { p with attachments := p.attachments ++ [newAttachment] }
              else p) }
        else w) }
  else st

/-- `removeAttachment` (WorkspaceContext.tsx lines 491-533): remote delete
first; on success filters the attachment out of the matching page. -/
def removeAttachment (ok : Bool) (st : AppState)
    (workspaceId pageId attachmentId : String) : AppState :=
  if ok then
    { st with
      remote := { st.remote with
        attachments := st.remote.attachments.filter (fun a =>
          a.id != attachmentId) },
      workspaces := st.workspaces.map (fun w =>
        if w.id == workspaceId then
          { w with pages := w.pages.map (fun p =>
              if p.id == pageId then
                { p with attachments := p.attachments.filter (fun a =>
                    a.id != attachmentId) }
              else p) }
        else w) }
  else st

/-- Kind of a content item in the pages variant (`"note" | "image"`). -/
inductive ItemKind where
  | note
  | image
deriving Repr, DecidableEq

/-- Content item argument of `addContentItem` in the pages variant. -/
structure ContentItem where
  kind : ItemKind
  title : String
  content : String
deriving Repr, DecidableEq

/-- The page `addContentItem` builds from a content item
(WorkspaceContext.tsx lines 550-600): a note becomes a page with the
note's body; an image becomes an empty page carrying one attachment. -/
def contentItemPage (item : ContentItem) (newPageId newAttId now : String) :
    Page :=
  match item.kind with
  | .note =>
      { id := newPageId, title := item.title, content := item.content,
        createdAt := now, attachments := [], isPublic := false }
  | .image =>
      { id := newPageId, title := item.title, content := "",
        createdAt := now,
        attachments := [{ id := newAttId, url := item.content,
                          name := item.title, createdAt := now }],
        isPublic := false }

/-- `addContentItem` (WorkspaceContext.tsx lines 536-645): the local
append happens unconditionally (the remote inserts are fire-and-forget, so
their outcome never affects the local state); the remote inserts happen
only when a workspace matches (they are issued from inside the map) and
succeed. -/
def addContentItem (ok : Bool) (st : AppState) (workspaceId : String)
    (item : ContentItem) (newPageId newAttId now : String) : AppState :=
  let newPage := contentItemPage item newPageId newAttId now
  let localWs := st.workspaces.map (fun w =>
    if w.id == workspaceId then
      { w with pages := w.pages ++ [newPage],
               currentPageId := some newPageId }
    else w)
  let fired := st.workspaces.any (fun w => w.id == workspaceId)
  let remotePages :=
    if ok && fired then
      st.remote.pages ++
        [{ id := newPageId, workspaceId := workspaceId,
           title := newPage.title, content := newPage.content,
           isPublic := false }]
    else st.remote.pages
  let remoteAtts :=
    if ok && fired then
      match item.kind with
      | .image =>
          st.remote.attachments ++
            [{ id := newAttId, pageId := newPageId, url := item.content,
               name := item.title, kind := "image" }]
      | .note => st.remote.attachments
    else st.remote.attachments
  let rem : Remote :=
    { st.remote with pages := remotePages, attachments := remoteAtts }
  { st with workspaces := localWs, remote := rem }

/-- `togglePagePublic` (WorkspaceContext.tsx lines 648-680): remote update
first; on success sets the flag on the matching page locally. -/
def togglePagePublic (ok : Bool) (st : AppState)
    (workspaceId pageId : String) (isPublic : Bool) : AppState :=
  if ok then
    { st with
      remote := { st.remote with
        pages := st.remote.pages.map (fun r =>
          if r.id == pageId then { r with isPublic := isPublic } else r) },
      workspaces := st.workspaces.map (fun w =>
        if w.id == workspaceId then
          { w with pages := w.pages.map (fun p =>
              if p.id == pageId then { p with isPublic := isPublic }
              else p) }
        else w) }
  else st

/-- `toggleWorkspacePublic` (WorkspaceContext.tsx lines 683-707): remote
update first; on success sets the flag on the matching workspace locally.
The `currentWorkspace` mirror is not touched. -/
def toggleWorkspacePublic (ok : Bool) (st : AppState)
    (workspaceId : String) (isPublic : Bool) : AppState :=
  if ok then
    { st with
      remote := { st.remote with
        workspaces := st.remote.workspaces.map (fun r =>
          if r.id == workspaceId then { r with isPublic := isPublic }
          else r) },
      workspaces := st.workspaces.map (fun w =>
        if w.id == workspaceId then { w with isPublic := isPublic }
        else w) }
  else st

/-- `getPageById` (WorkspaceContext.tsx lines 710-716): first page with
the given id across all workspaces. -/
def getPageById (st : AppState) (pageId : String) : Option Page :=
  st.workspaces.findSome? (fun w => w.pages.find? (fun p => p.id == pageId))

/-- `getWorkspaceById` (WorkspaceContext.tsx lines 718-720). -/
def getWorkspaceById (st : AppState) (workspaceId : String) :
    Option Workspace :=
  st.workspaces.find? (fun w => w.id == workspaceId)

/-- `copyShareLink` (src/src/pages/WorkspacePage.tsx lines 44-59): if
there is no current workspace it returns; if the current workspace is
private it toggles it public; the clipboard write does not touch the data
model. -/
def copyShareLink (ok : Bool) (st : AppState) : AppState :=
  match st.currentWorkspace with
  | none => st
  | some cw =>
      if cw.isPublic then st else toggleWorkspacePublic ok st cw.id true

/-- `handleSharePage` (src/unnamed/part_008 lines 189-205): looks the page
up by id; if absent it returns; if the page is private it toggles it
public via `togglePagePublic`. -/
def handleSharePage (ok : Bool) (st : AppState)
    (workspaceId pageId : String) : AppState :=
  match getPageById st pageId with
  | none => st
  | some p =>
      if p.isPublic then st else togglePagePublic ok st workspaceId pageId true

/-- `handleShareWorkspace` (src/unnamed/part_011 lines 43-58): if the
workspace exists and is private it toggles it public. -/
def handleShareWorkspace (ok : Bool) (st : AppState)
    (workspaceId : String) : AppState :=
  match getWorkspaceById st workspaceId with
  | none => st
  | some cw =>
      if cw.isPublic then st else toggleWorkspacePublic ok st cw.id true

/-- `fetchPage` of the share view (src/unnamed/part_012 lines 24-74): the
remote query filters on the page id and `is_public = true` and uses
`.single()`, which succeeds exactly when one row matches. -/
def fetchSharedPage (rem : Remote) (pageId : String) : Option PageRow :=
  match rem.pages.filter (fun r => r.id == pageId && r.isPublic) with
  | [r] => some r
  | _ => none

/-- The selected-page invariant of a workspace: `currentPageId`, when set,
is the id of a page present in the workspace's page collection. -/
def wsInvariant (w : Workspace) : Bool :=
  match w.currentPageId with
  | none => true
  | some pid => w.pages.any (fun p => p.id == pid)

end PagesCtx

namespace ItemsCtx

/-- Content item of the content-items variant (src/unnamed/part_001).
Its `type` field (`"note" | "image"`) is modelled as the string `kind`. -/
structure ContentItem where
  id : String
  kind : String
  title : String
  content : String
  createdAt : String
  updatedAt : String
deriving Repr, DecidableEq

/-- Workspace of the content-items variant: a flat list of items. -/
structure Workspace where
  id : String
  name : String
  createdAt : String
  updatedAt : String
  items : List ContentItem
deriving Repr, DecidableEq

/-- Row of the remote `workspaces` table in the content-items variant. -/
structure WorkspaceRow where
  id : String
  name : String
  userId : String
deriving Repr, DecidableEq

/-- Row of the remote `content_items` table. -/
structure ContentItemRow where
  id : String
  workspaceId : String
  kind : String
  title : String
  content : String
deriving Repr, DecidableEq

/-- Provider state of the content-items variant: the identity read from
the auth context, the two React states, and the modelled remote tables. -/
structure AppState where
  user : Option String
  workspaces : List Workspace
  currentWorkspace : Option Workspace
  remoteWorkspaces : List WorkspaceRow
  remoteItems : List ContentItemRow
deriving Repr, DecidableEq

/-- `createWorkspace` (part_001 lines 139-178): with no identity it
reports an error and returns; otherwise the remote insert runs first (the
server-generated id is modelled by `newId`) and on success the workspace
is appended and selected.  There is no name validation. -/
def createWorkspace (ok : Bool) (st : AppState) (name newId now : String) :
    AppState :=
  match st.user with
  | none => st
  | some uid =>
      if ok then
        let ws : Workspace :=
          { id := newId, name := name, createdAt := now, updatedAt := now,
            items := [] }
        { st with
          remoteWorkspaces := st.remoteWorkspaces ++
            [{ id := newId, name := name, userId := uid }],
          workspaces := st.workspaces ++ [ws],
          currentWorkspace := some ws }
      else st

/-- `renameWorkspace` (part_001 lines 181-224): remote update first; on
success the matching workspace is renamed locally and the
`currentWorkspace` mirror is renamed too when it is the one renamed. -/
def renameWorkspace (ok : Bool) (st : AppState) (id newName now : String) :
    AppState :=
  if ok then
    let ws := st.workspaces.map (fun w =>
      if w.id == id then { w with name := newName, updatedAt := now }
      else w)
    let cur : Option Workspace :=
      match st.currentWorkspace with
      | some cw =>
          if cw.id == id then
            some { cw with name := newName, updatedAt := now }
          else some cw
      | none => none
    { st with
      remoteWorkspaces := st.remoteWorkspaces.map (fun r =>
        if r.id == id then { r with name := newName } else r),
      workspaces := ws,
      currentWorkspace := cur }
  else st

/-- `deleteWorkspace` (part_001 lines 227-256): remote delete first; on
success the workspace is filtered out and, when it was current, the
selection falls back to the first remaining workspace or `null`. -/
def deleteWorkspace (ok : Bool) (st : AppState) (id : String) : AppState :=
  if ok then
    let updated := st.workspaces.filter (fun w => w.id != id)
    let cur : Option Workspace :=
      match st.currentWorkspace with
      | some cw => if cw.id == id then updated.head? else some cw
      | none => none
    { st with
      remoteWorkspaces := st.remoteWorkspaces.filter (fun r => r.id != id),
      workspaces := updated,
      currentWorkspace := cur }
  else st

/-- `selectWorkspace` (part_001 lines 259-264): sets `currentWorkspace`
only when a workspace with the given id exists; otherwise it does nothing
(the previous selection is kept).  Purely local. -/
def selectWorkspace (st : AppState) (id : String) : AppState :=
  match st.workspaces.find? (fun w => w.id == id) with
  | some w => { st with currentWorkspace := some w }
  | none => st

/-- A `Partial<ContentItem>` update restricted to the fields the sync core
forwards remotely: a field is `some` exactly when present in the update
object. -/
structure ItemUpdates where
  kind : Option String
  title : Option String
  content : Option String
deriving Repr, DecidableEq

/-- The object spread `{ ...item, ...updates, updatedAt: timestamp }` of
`updateContentItem`: present fields override, including empty strings. -/
def applyItemUpdates (u : ItemUpdates) (now : String) (it : ContentItem) :
    ContentItem :=
  { it with
    kind := u.kind.getD it.kind,
    title := u.title.getD it.title,
    content := u.content.getD it.content,
    updatedAt := now }

/-- JavaScript truthiness of an optional string field: present and not the
empty string. -/
def truthy (v : Option String) : Bool :=
  match v with
  | some s => s != ""
  | none => false

/-- The remote payload of `updateContentItem` (part_001 lines 333-336)
applied to a row: a field is written only when it is truthy
(`if (updates.title) ...`), so a present empty string is dropped. -/
def applyItemRowUpdates (u : ItemUpdates) (r : ContentItemRow) :
    ContentItemRow :=
  { r with
    kind := if truthy u.kind then u.kind.getD r.kind else r.kind,
    title := if truthy u.title then u.title.getD r.title else r.title,
    content :=
      if truthy u.content then u.content.getD r.content else r.content }

/-- `updateContentItem` (part_001 lines 329-399): remote update first
(filtered on item id and workspace id, carrying only truthy fields); on
success the item is updated locally by object spread (which does apply
empty strings) and the `currentWorkspace` mirror is updated likewise. -/
def updateContentItem (ok : Bool) (st : AppState)
    (workspaceId itemId : String) (u : ItemUpdates) (now : String) :
    AppState :=
  if ok then
    let updateItems := fun (items : List ContentItem) =>
      items.map (fun it =>
        if it.id == itemId then applyItemUpdates u now it else it)
    let ws := st.workspaces.map (fun w =>
      if w.id == workspaceId then
        { w with items := updateItems w.items, updatedAt := now }
      else w)
    let cur : Option Workspace :=
      match st.currentWorkspace with
      | some cw =>
          if cw.id == workspaceId then
            some { cw with items := updateItems cw.items, updatedAt := now }
          else some cw
      | none => none
    { st with
      remoteItems := st.remoteItems.map (fun r =>
        if r.id == itemId && r.workspaceId == workspaceId then
          applyItemRowUpdates u r
        else r),
      workspaces := ws,
      currentWorkspace := cur }
  else st

end ItemsCtx

/-!
Concrete example states used by counterexamples and witnesses.
-/

/-- A page with one of everything, used by concrete examples. -/
def exPage1 : PagesCtx.Page :=
  { id := "p1", title := "Todo", content := "body", createdAt := "t0",
    attachments := [], isPublic := false }

/-- A workspace holding `exPage1`, which is also its selected page. -/
def exWs1 : PagesCtx.Workspace :=
  { id := "w1", name := "Old", createdAt := "t0", pages := [exPage1],
    currentPageId := some "p1", isPublic := false }

/-- A remote store mirroring `exWs1`. -/
def exRemote : PagesCtx.Remote :=
  { workspaces := [{ id := "w1", name := "Old", userId := "u1",
                     isPublic := false }],
    pages := [{ id := "p1", workspaceId := "w1", title := "Todo",
                content := "body", isPublic := false }],
    attachments := [] }

/-- Pages-variant state with one workspace, one page, and the workspace
selected as current. -/
def exState : PagesCtx.AppState :=
  { workspaces := [exWs1], currentWorkspace := some exWs1,
    remote := exRemote }

/-- Pages-variant state with nothing in it. -/
def emptyState : PagesCtx.AppState :=
  { workspaces := [], currentWorkspace := none,
    remote := { workspaces := [], pages := [], attachments := [] } }

/-- A workspace with no pages and no selection. -/
def exWsNoPages : PagesCtx.Workspace :=
  { id := "w1", name := "W", createdAt := "t0", pages := [],
    currentPageId := none, isPublic := false }

/-- Pages-variant state holding only `exWsNoPages`. -/
def exStateNoPages : PagesCtx.AppState :=
  { workspaces := [exWsNoPages], currentWorkspace := none,
    remote := { workspaces := [], pages := [], attachments := [] } }

/-- A content item of the items variant. -/
def exItemB : ItemsCtx.ContentItem :=
  { id := "i1", kind := "note", title := "Note", content := "text",
    createdAt := "t0", updatedAt := "t0" }

/-- An items-variant workspace holding `exItemB`. -/
def exWsB : ItemsCtx.Workspace :=
  { id := "w1", name := "Old", createdAt := "t0", updatedAt := "t0",
    items := [exItemB] }

/-- Items-variant state with an identity, one workspace (selected), and a
remote mirror of its item. -/
def exStateB : ItemsCtx.AppState :=
  { user := some "u1", workspaces := [exWsB],
    currentWorkspace := some exWsB,
    remoteWorkspaces := [{ id := "w1", name := "Old", userId := "u1" }],
    remoteItems := [{ id := "i1", workspaceId := "w1", kind := "note",
                      title := "Note", content := "text" }] }

/-- Frame preservation for the workspace collection: same length, every
position keeps its workspace id, and every workspace whose id differs from
`wsId` is completely unchanged at its position. -/
def framePreserved (wsId : String) (ws ws2 : List PagesCtx.Workspace) :
    Prop :=
  ws2.length = ws.length ∧
  (∀ i : Nat, (ws2[i]?).map PagesCtx.Workspace.id =
    (ws[i]?).map PagesCtx.Workspace.id) ∧
  (∀ (i : Nat) (w : PagesCtx.Workspace),
    ws[i]? = some w → w.id ≠ wsId → ws2[i]? = some w)

/-- A title-only partial update object, the claim's example input
`updatePage(w, p, { title: "X" })`. -/
def titleOnly (x : String) : PagesCtx.PageUpdates :=
  { title := some x, content := none, isPublic := none }

/-!
Helper lemmas.
-/

/-- Helper: a map whose function preserves ids and fixes every workspace
with a different id preserves the frame. -/
theorem framePreserved_of_map (wsId : String)
    (ws : List PagesCtx.Workspace)
    (f : PagesCtx.Workspace → PagesCtx.Workspace)
    (hid : ∀ w, (f w).id = w.id)
    (hf : ∀ w, w.id ≠ wsId → f w = w) :
    framePreserved wsId ws (ws.map f) := by
  refine ⟨List.length_map _ _, ?_, ?_⟩
  · intro i
    cases h : ws[i]? with
    | none => simp [List.getElem?_map, h]
    | some w => simp [List.getElem?_map, h, hid]
  · intro i w h hw
    simp [List.getElem?_map, h, hf w hw]

/-- Helper: the identity map preserves the frame. -/
theorem framePreserved_refl (wsId : String)
    (ws : List PagesCtx.Workspace) : framePreserved wsId ws ws :=
  ⟨rfl, fun _ => rfl, fun _ _ h _ => h⟩

/-- Helper: mapping a function that fixes every element of a list is the
identity on that list. -/
theorem map_eq_self_of {α : Type} (l : List α) (f : α → α)
    (h : ∀ a ∈ l, f a = a) : l.map f = l := by
  induction l with
  | nil => rfl
  | cons a t ih =>
      rw [List.map_cons, h a (List.mem_cons_self a t), ih]
      intro x hx
      exact h x (List.mem_cons_of_mem a hx)

/-!
Claim theorems.
-/

/-- Claim C3, counterexample: with a failing remote insert, `createPage`
leaves the local mirror entirely unchanged (and returns the empty-string
sentinel) — the optimistic mutation is NOT present in the local mirror
afterwards, contradicting the claim that every one of the listed
operations keeps its optimistic local mutation when the remote call
fails. -/
theorem c3_counterexample :
    PagesCtx.createPage false exState "w1" "NewPage" "p2" "t1" =
      (exState, "") ∧
    ∀ w ∈ (PagesCtx.createPage false exState "w1" "NewPage"
        "p2" "t1").1.workspaces, ∀ p ∈ w.pages, p.id ≠ "p2" := by
  exact ⟨rfl, by decide⟩

/-- Claim C3 (amended): every remote failure is caught — each operation is
a total function on states following its catch branch.  Only `updatePage`
mutates the local mirror before the remote call: on remote failure its
local result is identical to the success path while the remote store is
untouched (so local and remote diverge).  `createWorkspace`, `createPage`,
`deletePage`, `addAttachment` and `removeAttachment` issue the remote
write first and on failure leave the state entirely unchanged, so their
local mutation is skipped rather than kept. -/
theorem c3_amended :
    (∀ st wsId pageId u,
      (PagesCtx.updatePage false st wsId pageId u).workspaces =
        (PagesCtx.updatePage true st wsId pageId u).workspaces ∧
      (PagesCtx.updatePage false st wsId pageId u).remote = st.remote) ∧
    (∀ st n i t, PagesCtx.createWorkspace false st n i t = st) ∧
    (∀ st w ttl pid t,
      PagesCtx.createPage false st w ttl pid t = (st, "")) ∧
    (∀ st w p, PagesCtx.deletePage false st w p = st) ∧
    (∀ st w p d n i t, PagesCtx.addAttachment false st w p d n i t = st) ∧
    (∀ st w p a, PagesCtx.removeAttachment false st w p a = st) := by
  refine ⟨fun st wsId pageId u => ⟨rfl, rfl⟩, fun st n i t => rfl,
    fun st w ttl pid t => rfl, fun st w p => rfl,
    fun st w p d n i t => rfl, fun st w p a => rfl⟩

/-- Claim C6, counterexample: in the content-items variant,
`selectWorkspace` with an id matching no workspace leaves the previous
selection in place instead of setting it to null: here the current
workspace stays `exWsB` (not `none`) although no workspace has id
"nope". -/
theorem c6_counterexample :
    (ItemsCtx.selectWorkspace exStateB "nope").currentWorkspace =
      some exWsB ∧
    exStateB.workspaces.all (fun w => w.id != "nope") = true := by
  decide

/-- Claim C6 (amended): `selectWorkspace` is purely local in both
variants — the workspace collection and the remote store are unchanged.
The pages variant sets the current workspace to the first match, or to
none when no workspace matches; the content-items variant sets it to the
first match but, when no workspace matches, leaves the previous selection
unchanged instead of setting it to null. -/
theorem c6_amended :
    (∀ st id,
      (PagesCtx.selectWorkspace st id).workspaces = st.workspaces ∧
      (PagesCtx.selectWorkspace st id).remote = st.remote ∧
      ((∀ w ∈ st.workspaces, w.id ≠ id) →
        (PagesCtx.selectWorkspace st id).currentWorkspace = none) ∧
      (∀ w, st.workspaces.find? (fun x => x.id == id) = some w →
        (PagesCtx.selectWorkspace st id).currentWorkspace = some w ∧
        w ∈ st.workspaces ∧ w.id = id)) ∧
    (∀ st id,
      (ItemsCtx.selectWorkspace st id).workspaces = st.workspaces ∧
      (ItemsCtx.selectWorkspace st id).remoteWorkspaces =
        st.remoteWorkspaces ∧
      (ItemsCtx.selectWorkspace st id).remoteItems = st.remoteItems ∧
      ((∀ w ∈ st.workspaces, w.id ≠ id) →
        (ItemsCtx.selectWorkspace st id).currentWorkspace =
          st.currentWorkspace) ∧
      (∀ w, st.workspaces.find? (fun x => x.id == id) = some w →
        (ItemsCtx.selectWorkspace st id).currentWorkspace = some w ∧
        w ∈ st.workspaces ∧ w.id = id)) := by
  constructor
  · intro st id
    refine ⟨rfl, rfl, ?_, ?_⟩
    · intro h
      simp only [PagesCtx.selectWorkspace]
      rw [List.find?_eq_none.mpr]
      intro x hx
      simp [h x hx]
    · intro w hw
      refine ⟨?_, List.mem_of_find?_eq_some hw, ?_⟩
      · simp only [PagesCtx.selectWorkspace, hw]
      · have := List.find?_some hw
        simpa using this
  · intro st id
    constructor
    · simp only [ItemsCtx.selectWorkspace]
      cases h : st.workspaces.find? (fun x => x.id == id) <;> rfl
    constructor
    · simp only [ItemsCtx.selectWorkspace]
      cases h : st.workspaces.find? (fun x => x.id == id) <;> rfl
    constructor
    · simp only [ItemsCtx.selectWorkspace]
      cases h : st.workspaces.find? (fun x => x.id == id) <;> rfl
    constructor
    · intro h
      simp only [ItemsCtx.selectWorkspace]
      rw [List.find?_eq_none.mpr]
      intro x hx
      simp [h x hx]
    · intro w hw
      refine ⟨?_, List.mem_of_find?_eq_some hw, ?_⟩
      · simp only [ItemsCtx.selectWorkspace, hw]
      · have := List.find?_some hw
        simpa using this

/-- Claim C6, witness: the amended theorem applied to concrete states —
selecting "w1" in the pages state yields `exWs1`, and selecting a missing
id in the items state leaves the previous selection. -/
theorem c6_witness :
    (PagesCtx.selectWorkspace exState "w1").currentWorkspace =
      some exWs1 ∧
    (ItemsCtx.selectWorkspace exStateB "zzz").currentWorkspace =
      exStateB.currentWorkspace := by
  have h := c6_amended
  exact ⟨((h.1 exState "w1").2.2.2 exWs1 (by decide)).1,
    (h.2 exStateB "zzz").2.2.2.1 (by decide)⟩

/-- Claim C5, counterexample: in the pages variant, renaming the
currently selected workspace updates the collection but NOT the
selected-workspace mirror: after renaming "w1" (which is current) to
"New", the collection shows "New" while `currentWorkspace` still carries
the old name — the mirror does not reflect the new name. -/
theorem c5_counterexample :
    (PagesCtx.renameWorkspace true exState "w1" "New").workspaces.map
        PagesCtx.Workspace.name = ["New"] ∧
    (PagesCtx.renameWorkspace true exState "w1" "New").currentWorkspace.map
        PagesCtx.Workspace.name = some "Old" ∧
    exState.currentWorkspace.map PagesCtx.Workspace.id = some "w1" := by
  decide

/-- Claim C5 (amended): renaming or deleting a non-existent workspace id
leaves the workspace collection unchanged in both variants (the operations
are total functions following their catch branches, so no exception
propagates); with a matching id the name is updated locally and remotely;
the content-items variant also updates the selected-workspace mirror when
the renamed workspace is the current one, but the pages variant never
touches the `currentWorkspace` mirror, which therefore keeps the old
name. -/
theorem c5_amended :
    (∀ (ok : Bool) st id n, (∀ w ∈ st.workspaces, w.id ≠ id) →
      (PagesCtx.renameWorkspace ok st id n).workspaces = st.workspaces) ∧
    (∀ (ok : Bool) st id, (∀ w ∈ st.workspaces, w.id ≠ id) →
      (PagesCtx.deleteWorkspace ok st id).workspaces = st.workspaces) ∧
    (∀ (ok : Bool) st id n now, (∀ w ∈ st.workspaces, w.id ≠ id) →
      (ItemsCtx.renameWorkspace ok st id n now).workspaces =
        st.workspaces) ∧
    (∀ (ok : Bool) st id, (∀ w ∈ st.workspaces, w.id ≠ id) →
      (ItemsCtx.deleteWorkspace ok st id).workspaces = st.workspaces) ∧
    (∀ st id n (w : PagesCtx.Workspace), w ∈ st.workspaces → w.id = id →
      { w with name := n } ∈
        (PagesCtx.renameWorkspace true st id n).workspaces) ∧
    (∀ st id n (r : PagesCtx.WorkspaceRow),
      r ∈ st.remote.workspaces → r.id = id →
      { r with name := n } ∈
        (PagesCtx.renameWorkspace true st id n).remote.workspaces) ∧
    (∀ (ok : Bool) st id n,
      (PagesCtx.renameWorkspace ok st id n).currentWorkspace =
        st.currentWorkspace) ∧
    (∀ st id n now (cw : ItemsCtx.Workspace),
      st.currentWorkspace = some cw → cw.id = id →
      (ItemsCtx.renameWorkspace true st id n now).currentWorkspace =
        some { cw with name := n, updatedAt := now }) := by
  refine ⟨?_, ?_, ?_, ?_, ?_, ?_, ?_, ?_⟩
  · intro ok st id n h
    cases ok
    · rfl
    · have hmap := map_eq_self_of st.workspaces
        (fun w => if w.id == id then { w with name := n } else w)
        (fun w hw => by simp [h w hw])
      simpa [PagesCtx.renameWorkspace] using hmap
  · intro ok st id h
    cases ok
    · rfl
    · simp only [PagesCtx.deleteWorkspace]
      have hfil : st.workspaces.filter (fun w => w.id != id) =
          st.workspaces := by
        rw [List.filter_eq_self]
        intro w hw
        simp [h w hw]
      cases hc : st.currentWorkspace with
      | none => simp [hfil]
      | some cw => cases hq : cw.id == id <;> simp [hfil, hq]
  · intro ok st id n now h
    cases ok
    · rfl
    · have hmap := map_eq_self_of st.workspaces
        (fun w => if w.id == id then { w with name := n, updatedAt := now }
          else w)
        (fun w hw => by simp [h w hw])
      simpa [ItemsCtx.renameWorkspace] using hmap
  · intro ok st id h
    cases ok
    · rfl
    · have hfil : st.workspaces.filter (fun w => w.id != id) =
          st.workspaces := by
        rw [List.filter_eq_self]
        intro w hw
        simp [h w hw]
      simp [ItemsCtx.deleteWorkspace, hfil]
  · intro st id n w hw hid
    simp only [PagesCtx.renameWorkspace]
    have := List.mem_map_of_mem
      (f := fun w : PagesCtx.Workspace =>
        if w.id == id then { w with name := n } else w) hw
    simpa [hid] using this
  · intro st id n r hr hid
    simp only [PagesCtx.renameWorkspace]
    have := List.mem_map_of_mem
      (f := fun r : PagesCtx.WorkspaceRow =>
        if r.id == id then { r with name := n } else r) hr
    simpa [hid] using this
  · intro ok st id n
    cases ok <;> rfl
  · intro st id n now cw hcw hid
    simp [ItemsCtx.renameWorkspace, hcw, hid]

/-- Claim C5, witness: the amended theorem applied to concrete states — a
missing id is a no-op on the collection, and the items variant refreshes
the mirror of the renamed current workspace. -/
theorem c5_witness :
    (PagesCtx.renameWorkspace true exState "missing" "X").workspaces =
      exState.workspaces ∧
    (ItemsCtx.renameWorkspace true exStateB "w1" "New"
        "t1").currentWorkspace =
      some { exWsB with name := "New", updatedAt := "t1" } := by
  have h := c5_amended
  exact ⟨h.1 true exState "missing" "X" (by decide),
    h.2.2.2.2.2.2.2 exStateB "w1" "New" "t1" exWsB (by decide) (by decide)⟩

/-- Claim C2, counterexample: `createWorkspace` with an empty name (pages
variant, successful remote call) creates a workspace bearing the empty
name — no error path exists and the workspace IS created, contradicting
the claim that an empty name is rejected with an error and no workspace. -/
theorem c2_counterexample :
    (PagesCtx.createWorkspace true emptyState "" "w1" "t0").workspaces.map
        PagesCtx.Workspace.name = [""] := by
  decide

/-- Claim C2 (amended): the sync core performs no name validation — the
empty-name guard lives in the calling dialog, which silently returns
without invoking `createWorkspace` and reports no error.  With any name
(empty included) and a fresh id, the pages variant appends exactly one new
workspace bearing that name, with an empty page collection, and selects it
as current; it performs no identity check at all.  The content-items
variant reports an error and creates nothing when there is no active
identity, and otherwise likewise appends exactly one new workspace and
selects it. -/
theorem c2_amended :
    (∀ st name newId now, (∀ w ∈ st.workspaces, w.id ≠ newId) →
      (PagesCtx.createWorkspace true st name newId now).workspaces =
        st.workspaces ++
          [{ id := newId, name := name, createdAt := now, pages := [],
             currentPageId := none, isPublic := false }] ∧
      (PagesCtx.createWorkspace true st name newId now).currentWorkspace =
        some { id := newId, name := name, createdAt := now, pages := [],
               currentPageId := none, isPublic := false }) ∧
    (∀ (ok : Bool) st name newId now, st.user = none →
      ItemsCtx.createWorkspace ok st name newId now = st) ∧
    (∀ st name newId now uid, st.user = some uid →
      (ItemsCtx.createWorkspace true st name newId now).workspaces =
        st.workspaces ++
          [{ id := newId, name := name, createdAt := now, updatedAt := now,
             items := [] }] ∧
      (ItemsCtx.createWorkspace true st name newId now).currentWorkspace =
        some { id := newId, name := name, createdAt := now,
               updatedAt := now, items := [] }) := by
  refine ⟨?_, ?_, ?_⟩
  · intro st name newId now h
    constructor
    · simp [PagesCtx.createWorkspace, PagesCtx.navigateToWorkspace,
        PagesCtx.selectWorkspace]
    · have hnone : st.workspaces.find?
          (fun w => w.id == newId) = none := by
        rw [List.find?_eq_none]
        intro x hx
        simp [h x hx]
      simp [PagesCtx.createWorkspace, PagesCtx.navigateToWorkspace,
        PagesCtx.selectWorkspace, List.find?_append, hnone]
  · intro ok st name newId now h
    simp [ItemsCtx.createWorkspace, h]
  · intro st name newId now uid h
    constructor
    · simp [ItemsCtx.createWorkspace, h]
    · simp [ItemsCtx.createWorkspace, h]

/-- Claim C2, witness: the amended theorem applied to the empty state and
to a concrete items-variant state without identity. -/
theorem c2_witness :
    (PagesCtx.createWorkspace true emptyState "Notes" "w9"
        "t0").currentWorkspace =
      some { id := "w9", name := "Notes", createdAt := "t0", pages := [],
             currentPageId := none, isPublic := false } ∧
    ItemsCtx.createWorkspace true
        { exStateB with user := none } "Notes" "w9" "t0" =
      { exStateB with user := none } := by
  have h := c2_amended
  exact ⟨(h.1 emptyState "Notes" "w9" "t0" (by decide)).2,
    h.2.1 true { exStateB with user := none } "Notes" "w9" "t0" rfl⟩

/-- Claim C1, counterexample: `selectPage` is a sync-core operation after
which `currentPageId` is set but references no page of the workspace: on a
workspace with no pages it sets `currentPageId := some "ghost"`, a
dangling reference, so the invariant does not hold after every sync-core
operation. -/
theorem c1_counterexample :
    (PagesCtx.selectPage exStateNoPages "w1" "ghost").workspaces.map
        PagesCtx.wsInvariant = [false] ∧
    (PagesCtx.selectPage exStateNoPages "w1" "ghost").workspaces.map
        PagesCtx.Workspace.currentPageId = [some "ghost"] := by
  decide

/-- Helper: the per-workspace step of `deletePage` removes every page
with the deleted id, preserves the selected-page invariant, and never
leaves the deleted id selected. -/
theorem deletePageWs_spec (pid : String) (w : PagesCtx.Workspace)
    (h : PagesCtx.wsInvariant w = true) :
    PagesCtx.wsInvariant (PagesCtx.deletePageWs pid w) = true ∧
    (∀ p ∈ (PagesCtx.deletePageWs pid w).pages, p.id ≠ pid) ∧
    (PagesCtx.deletePageWs pid w).currentPageId ≠ some pid := by
  have hup : ∀ p ∈ w.pages.filter (fun q => q.id != pid), p.id ≠ pid := by
    intro p hp
    simpa using (List.mem_filter.mp hp).2
  refine ⟨?_, ?_, ?_⟩
  · simp only [PagesCtx.deletePageWs, PagesCtx.wsInvariant]
    cases hc : w.currentPageId == some pid with
    | true =>
        cases hfil : w.pages.filter (fun q => q.id != pid) with
        | nil => simp [hc, hfil]
        | cons q t => simp [hc, hfil]
    | false =>
        cases hcp : w.currentPageId with
        | none => simp [hc, hcp]
        | some qid =>
            have hany : w.pages.any (fun p => p.id == qid) = true := by
              simpa [PagesCtx.wsInvariant, hcp] using h
            obtain ⟨p0, hp0, hp0id⟩ := List.any_eq_true.mp hany
            have hp0id2 : p0.id = qid := by simpa using hp0id
            have hqid : qid ≠ pid := by
              intro e
              rw [hcp, e] at hc
              simp at hc
            have hp0in : p0 ∈ w.pages.filter (fun q => q.id != pid) := by
              rw [List.mem_filter]
              exact ⟨hp0, by simp [hp0id2, hqid]⟩
            simp only [Bool.false_eq_true, if_false]
            exact List.any_eq_true.mpr ⟨p0, hp0in, by simp [hp0id2]⟩
  · intro p hp
    exact hup p (by simpa [PagesCtx.deletePageWs] using hp)
  · simp only [PagesCtx.deletePageWs]
    cases hc : w.currentPageId == some pid with
    | true =>
        cases hfil : w.pages.filter (fun q => q.id != pid) with
        | nil => simp [hc, hfil]
        | cons q t =>
            have hq : q.id ≠ pid := by
              refine hup q ?_
              rw [hfil]
              exact List.mem_cons_self q t
            simp [hc, hfil, hq]
    | false =>
        simp only [hc, Bool.false_eq_true, if_false]
        intro e
        rw [e] at hc
        simp at hc

/-- Claim C1 (amended): `deletePage` removes the page from the
workspace's collection, preserves the selected-page invariant, and never
leaves the deleted page's id selected (falling back to the first
remaining page or to none).  The invariant, however, is not maintained by
every sync-core operation: `selectPage` sets `currentPageId` to its
argument unconditionally, so it preserves the invariant only when the
page id it is given is present in the target workspace's page
collection. -/
theorem c1_amended :
    (∀ (ok : Bool) st wsId pid,
      (∀ w ∈ st.workspaces, PagesCtx.wsInvariant w = true) →
      ∀ w2 ∈ (PagesCtx.deletePage ok st wsId pid).workspaces,
        PagesCtx.wsInvariant w2 = true ∧
        (ok = true → w2.id = wsId →
          (∀ p ∈ w2.pages, p.id ≠ pid) ∧
          w2.currentPageId ≠ some pid)) ∧
    (∀ st wsId pid,
      (∀ w ∈ st.workspaces, PagesCtx.wsInvariant w = true ∧
        (w.id = wsId → w.pages.any (fun p => p.id == pid) = true)) →
      ∀ w2 ∈ (PagesCtx.selectPage st wsId pid).workspaces,
        PagesCtx.wsInvariant w2 = true) := by
  constructor
  · intro ok st wsId pid h w2 hw2
    cases ok with
    | false =>
        refine ⟨h w2 hw2, ?_⟩
        intro he
        exact absurd he (by simp)
    | true =>
        simp only [PagesCtx.deletePage, if_true] at hw2
        obtain ⟨w, hw, rfl⟩ := List.mem_map.mp hw2
        cases hid : w.id == wsId with
        | true =>
            have hspec := deletePageWs_spec pid w (h w hw)
            simp only [hid, if_true]
            exact ⟨hspec.1, fun _ _ => ⟨hspec.2.1, hspec.2.2⟩⟩
        | false =>
            simp only [hid, Bool.false_eq_true, if_false]
            refine ⟨h w hw, ?_⟩
            intro _ hid2
            rw [hid2] at hid
            simp at hid
  · intro st wsId pid h w2 hw2
    simp only [PagesCtx.selectPage] at hw2
    obtain ⟨w, hw, rfl⟩ := List.mem_map.mp hw2
    cases hid : w.id == wsId with
    | true =>
        have hid2 : w.id = wsId := by simpa using hid
        simp only [hid, if_true, PagesCtx.wsInvariant]
        exact (h w hw).2 hid2
    | false =>
        simp only [hid, Bool.false_eq_true, if_false]
        exact (h w hw).1

/-- Claim C1, witness: the amended theorem applied to the concrete state —
deleting the selected page "p1" of "w1" yields a workspace satisfying the
invariant whose selection is not the deleted id. -/
theorem c1_witness :
    PagesCtx.wsInvariant
      { exWs1 with pages := [], currentPageId := none } = true ∧
    PagesCtx.Workspace.currentPageId
      { exWs1 with pages := [], currentPageId := none } ≠ some "p1" := by
  have h := (c1_amended.1 true exState "w1" "p1" (by decide))
    { exWs1 with pages := [], currentPageId := none } (by decide)
  exact ⟨h.1, (h.2 rfl (by decide)).2⟩

/-- Claim C4 (confirmed): `updatePage` with a title-only partial update
changes only the title.  Locally, every page keeps its content (body) and
its visibility flag in place (positionally), the targeted page's title
becomes the new value, and any page that is not the targeted page of the
targeted workspace is entirely unchanged.  Remotely (successful call),
the payload carries only the present field: every row keeps its content,
visibility and workspace id, the rows with the page's id get the new
title, and all other rows are unchanged; on a failed remote call the
remote store is untouched. -/
theorem c4_updatePage_partial :
    ∀ (ok : Bool) (st : PagesCtx.AppState) (wsId pageId x : String),
      (PagesCtx.updatePage ok st wsId pageId
          (titleOnly x)).workspaces.length = st.workspaces.length ∧
      (∀ (i : Nat) (w w2 : PagesCtx.Workspace),
        st.workspaces[i]? = some w →
        (PagesCtx.updatePage ok st wsId pageId
            (titleOnly x)).workspaces[i]? = some w2 →
        w2.id = w.id ∧ w2.pages.length = w.pages.length ∧
        (∀ (j : Nat) (p p2 : PagesCtx.Page),
          w.pages[j]? = some p → w2.pages[j]? = some p2 →
          p2.content = p.content ∧ p2.isPublic = p.isPublic ∧
          (w.id = wsId → p.id = pageId → p2.title = x) ∧
          (w.id ≠ wsId ∨ p.id ≠ pageId → p2 = p))) ∧
      ((PagesCtx.updatePage true st wsId pageId
          (titleOnly x)).remote.pages.length = st.remote.pages.length ∧
        (∀ (k : Nat) (r r2 : PagesCtx.PageRow),
          st.remote.pages[k]? = some r →
          (PagesCtx.updatePage true st wsId pageId
              (titleOnly x)).remote.pages[k]? = some r2 →
          r2.content = r.content ∧ r2.isPublic = r.isPublic ∧
          r2.workspaceId = r.workspaceId ∧
          (r.id = pageId → r2.title = x) ∧ (r.id ≠ pageId → r2 = r))) ∧
      (PagesCtx.updatePage false st wsId pageId (titleOnly x)).remote =
        st.remote := by
  intro ok st wsId pageId x
  have hW : (PagesCtx.updatePage ok st wsId pageId
      (titleOnly x)).workspaces = st.workspaces.map (fun w =>
        if w.id == wsId then
          { w with pages := w.pages.map (fun p =>
              if p.id == pageId then
                PagesCtx.applyPageUpdates (titleOnly x) p
              else p) }
        else w) := by
    cases ok <;> rfl
  refine ⟨?_, ?_, ⟨?_, ?_⟩, rfl⟩
  · rw [hW, List.length_map]
  · intro i w w2 hw hw2
    rw [hW, List.getElem?_map, hw, Option.map_some'] at hw2
    injection hw2 with hw2
    subst hw2
    cases hid : w.id == wsId with
    | false =>
        simp only [hid, Bool.false_eq_true, if_false]
        refine ⟨by trivial, by trivial, ?_⟩
        intro j p p2 hp hp2
        rw [hp] at hp2
        injection hp2 with hp2
        subst hp2
        have hid2 : w.id ≠ wsId := by simpa using hid
        exact ⟨by trivial, by trivial, fun e => absurd e hid2,
          fun _ => by trivial⟩
    | true =>
        have hid2 : w.id = wsId := by simpa using hid
        simp only [hid, if_true]
        refine ⟨by trivial, by simp, ?_⟩
        intro j p p2 hp hp2
        simp only [List.getElem?_map, hp, Option.map_some'] at hp2
        injection hp2 with hp2
        subst hp2
        cases hpid : p.id == pageId with
        | false =>
            have hpid2 : p.id ≠ pageId := by simpa using hpid
            simp only [hpid, Bool.false_eq_true, if_false]
            exact ⟨by trivial, by trivial, fun _ e => absurd e hpid2,
              fun _ => by trivial⟩
        | true =>
            have hpid2 : p.id = pageId := by simpa using hpid
            simp only [hpid, if_true]
            refine ⟨by trivial, by trivial, fun _ _ => by trivial, ?_⟩
            intro hcon
            cases hcon with
            | inl hl => exact absurd hid2 hl
            | inr hr => exact absurd hpid2 hr
  · simp [PagesCtx.updatePage]
  · intro k r r2 hr hr2
    have hR : (PagesCtx.updatePage true st wsId pageId
        (titleOnly x)).remote.pages = st.remote.pages.map (fun q =>
          if q.id == pageId then
            PagesCtx.applyPageRowUpdates (titleOnly x) q
          else q) := rfl
    rw [hR, List.getElem?_map, hr, Option.map_some'] at hr2
    injection hr2 with hr2
    subst hr2
    cases hrid : r.id == pageId with
    | false =>
        have hrid2 : r.id ≠ pageId := by simpa using hrid
        simp only [hrid, Bool.false_eq_true, if_false]
        exact ⟨by trivial, by trivial, by trivial,
          fun e => absurd e hrid2, fun _ => by trivial⟩
    | true =>
        have hrid2 : r.id = pageId := by simpa using hrid
        simp only [hrid, if_true]
        exact ⟨by trivial, by trivial, by trivial, fun _ => by trivial,
          fun e => absurd hrid2 e⟩

/-- Claim C4, witness: the theorem applied at the concrete state — after
a title-only update of page "p1" the page keeps its body and visibility,
its title becomes "X", and the remote row keeps its content. -/
theorem c4_witness :
    PagesCtx.Page.content { exPage1 with title := "X" } =
      exPage1.content ∧
    PagesCtx.Page.isPublic { exPage1 with title := "X" } =
      exPage1.isPublic ∧
    PagesCtx.Page.title { exPage1 with title := "X" } = "X" ∧
    PagesCtx.PageRow.content { id := "p1", workspaceId := "w1", title := "X", content := "body", isPublic := false } = "body" := by
  have h := c4_updatePage_partial true exState "w1" "p1" "X"
  have hloc := h.2.1 0 exWs1
    { exWs1 with pages := [{ exPage1 with title := "X" }] }
    (by decide) (by decide)
  have hpg := hloc.2.2 0 exPage1 { exPage1 with title := "X" }
    (by decide) (by decide)
  have hrow := h.2.2.1.2 0
    { id := "p1", workspaceId := "w1", title := "Todo", content := "body", isPublic := false }
    { id := "p1", workspaceId := "w1", title := "X", content := "body", isPublic := false }
    (by decide) (by decide)
  exact ⟨hpg.1, hpg.2.1, hpg.2.2.1 rfl rfl, hrow.1⟩

/-- Claim C9 (confirmed): every sync-core operation parameterized by a
workspace id (`createPage`, `updatePage`, `deletePage`, `selectPage`,
`addAttachment`, `removeAttachment`, `addContentItem`,
`togglePagePublic`) leaves every workspace whose id differs from the
target id completely unchanged at its position, and preserves the length
and the per-position ids of the workspace collection (hence its relative
order), whether the remote call succeeds or fails. -/
theorem c9_frame :
    ∀ (ok : Bool) (st : PagesCtx.AppState)
      (wsId pid s1 s2 s3 s4 : String) (u : PagesCtx.PageUpdates)
      (item : PagesCtx.ContentItem) (b : Bool),
      framePreserved wsId st.workspaces
        ((PagesCtx.createPage ok st wsId s1 s2 s3).1.workspaces) ∧
      framePreserved wsId st.workspaces
        ((PagesCtx.updatePage ok st wsId pid u).workspaces) ∧
      framePreserved wsId st.workspaces
        ((PagesCtx.deletePage ok st wsId pid).workspaces) ∧
      framePreserved wsId st.workspaces
        ((PagesCtx.selectPage st wsId pid).workspaces) ∧
      framePreserved wsId st.workspaces
        ((PagesCtx.addAttachment ok st wsId pid s1 s2 s3 s4).workspaces) ∧
      framePreserved wsId st.workspaces
        ((PagesCtx.removeAttachment ok st wsId pid s1).workspaces) ∧
      framePreserved wsId st.workspaces
        ((PagesCtx.addContentItem ok st wsId item s1 s2 s3).workspaces) ∧
      framePreserved wsId st.workspaces
        ((PagesCtx.togglePagePublic ok st wsId pid b).workspaces) := by
  intro ok st wsId pid s1 s2 s3 s4 u item b
  refine ⟨?_, ?_, ?_, ?_, ?_, ?_, ?_, ?_⟩
  · cases ok with
    | false => exact framePreserved_refl _ _
    | true =>
        refine framePreserved_of_map wsId st.workspaces _ ?_ ?_
        · intro w
          cases h : w.id == wsId <;> simp [h]
        · intro w hw
          simp [hw]
  · have hW : (PagesCtx.updatePage ok st wsId pid u).workspaces =
        st.workspaces.map (fun w =>
          if w.id == wsId then
            { w with pages := w.pages.map (fun p =>
                if p.id == pid then PagesCtx.applyPageUpdates u p
                else p) }
          else w) := by
      cases ok <;> rfl
    rw [hW]
    refine framePreserved_of_map wsId st.workspaces _ ?_ ?_
    · intro w
      cases h : w.id == wsId <;> simp [h]
    · intro w hw
      simp [hw]
  · cases ok with
    | false => exact framePreserved_refl _ _
    | true =>
        refine framePreserved_of_map wsId st.workspaces _ ?_ ?_
        · intro w
          cases h : w.id == wsId <;> simp [h, PagesCtx.deletePageWs]
        · intro w hw
          simp [hw]
  · refine framePreserved_of_map wsId st.workspaces _ ?_ ?_
    · intro w
      cases h : w.id == wsId <;> simp [h]
    · intro w hw
      simp [hw]
  · cases ok with
    | false => exact framePreserved_refl _ _
    | true =>
        refine framePreserved_of_map wsId st.workspaces _ ?_ ?_
        · intro w
          cases h : w.id == wsId <;> simp [h]
        · intro w hw
          simp [hw]
  · cases ok with
    | false => exact framePreserved_refl _ _
    | true =>
        refine framePreserved_of_map wsId st.workspaces _ ?_ ?_
        · intro w
          cases h : w.id == wsId <;> simp [h]
        · intro w hw
          simp [hw]
  · refine framePreserved_of_map wsId st.workspaces _ ?_ ?_
    · intro w
      cases h : w.id == wsId <;> simp [h]
    · intro w hw
      simp [hw]
  · cases ok with
    | false => exact framePreserved_refl _ _
    | true =>
        refine framePreserved_of_map wsId st.workspaces _ ?_ ?_
        · intro w
          cases h : w.id == wsId <;> simp [h]
        · intro w hw
          simp [hw]

/-- Claim C9, witness: the frame theorem applied at the concrete state
with a target workspace id different from "w1": both `selectPage` and
`deletePage` aimed at "w2" leave the workspace "w1" unchanged in place. -/
theorem c9_witness :
    (PagesCtx.selectPage exState "w2" "p9").workspaces[0]? =
      some exWs1 ∧
    (PagesCtx.deletePage true exState "w2" "p1").workspaces[0]? =
      some exWs1 := by
  have h := c9_frame true exState "w2" "p9" "a" "b" "c" "d"
    (titleOnly "X")
    { kind := PagesCtx.ItemKind.note, title := "t", content := "c" } true
  exact ⟨(h.2.2.2.1).2.2 0 exWs1 (by decide) (by decide),
    (h.2.2.1).2.2 0 exWs1 (by decide) (by decide)⟩

/-- Claim C7 (confirmed): each copy-share-link operation — the workspace
variants `copyShareLink` (WorkspacePage.tsx) and `handleShareWorkspace`
(part_011), and the page variant `handleSharePage` (part_008) — flips the
entity's visibility flag to public when it was private (every workspace
or page carrying that id becomes public in the mirror), and leaves the
state entirely unchanged when the flag was already public. -/
theorem c7_share_flips_public :
    ∀ (st : PagesCtx.AppState),
      (∀ cw, st.currentWorkspace = some cw →
        (cw.isPublic = true → PagesCtx.copyShareLink true st = st) ∧
        (cw.isPublic = false →
          ∀ w ∈ (PagesCtx.copyShareLink true st).workspaces,
            w.id = cw.id → w.isPublic = true)) ∧
      (∀ wsId cw, PagesCtx.getWorkspaceById st wsId = some cw →
        (cw.isPublic = true →
          PagesCtx.handleShareWorkspace true st wsId = st) ∧
        (cw.isPublic = false →
          ∀ w ∈ (PagesCtx.handleShareWorkspace true st wsId).workspaces,
            w.id = cw.id → w.isPublic = true)) ∧
      (∀ wsId pageId p, PagesCtx.getPageById st pageId = some p →
        (p.isPublic = true →
          PagesCtx.handleSharePage true st wsId pageId = st) ∧
        (p.isPublic = false →
          ∀ w ∈ (PagesCtx.handleSharePage true st wsId pageId).workspaces,
            w.id = wsId → ∀ q ∈ w.pages, q.id = pageId →
              q.isPublic = true)) := by
  intro st
  refine ⟨?_, ?_, ?_⟩
  · intro cw hcw
    constructor
    · intro hpub
      simp [PagesCtx.copyShareLink, hcw, hpub]
    · intro hpub
      intro w hw hid
      simp only [PagesCtx.copyShareLink, hcw, hpub,
        Bool.false_eq_true, if_false] at hw
      simp only [PagesCtx.toggleWorkspacePublic, if_true] at hw
      obtain ⟨a, ha, rfl⟩ := List.mem_map.mp hw
      cases h2 : a.id == cw.id with
      | true => simp [h2]
      | false =>
          simp only [h2, Bool.false_eq_true, if_false] at hid ⊢
          rw [hid] at h2
          simp at h2
  · intro wsId cw hcw
    constructor
    · intro hpub
      simp [PagesCtx.handleShareWorkspace, hcw, hpub]
    · intro hpub
      intro w hw hid
      simp only [PagesCtx.handleShareWorkspace, hcw, hpub,
        Bool.false_eq_true, if_false] at hw
      simp only [PagesCtx.toggleWorkspacePublic, if_true] at hw
      obtain ⟨a, ha, rfl⟩ := List.mem_map.mp hw
      cases h2 : a.id == cw.id with
      | true => simp [h2]
      | false =>
          simp only [h2, Bool.false_eq_true, if_false] at hid ⊢
          rw [hid] at h2
          simp at h2
  · intro wsId pageId p hp
    constructor
    · intro hpub
      simp [PagesCtx.handleSharePage, hp, hpub]
    · intro hpub
      intro w hw hid q hq hqid
      simp only [PagesCtx.handleSharePage, hp, hpub,
        Bool.false_eq_true, if_false] at hw
      simp only [PagesCtx.togglePagePublic, if_true] at hw
      obtain ⟨a, ha, rfl⟩ := List.mem_map.mp hw
      cases h2 : a.id == wsId with
      | true =>
          simp only [h2, if_true] at hq
          obtain ⟨a2, ha2, rfl⟩ := List.mem_map.mp hq
          cases h3 : a2.id == pageId with
          | true => simp [h3]
          | false =>
              simp only [h3, Bool.false_eq_true, if_false] at hqid ⊢
              rw [hqid] at h3
              simp at h3
      | false =>
          simp only [h2, Bool.false_eq_true, if_false] at hid
          rw [hid] at h2
          simp at h2

/-- Claim C7, witness: the theorem applied at concrete states — sharing
the private current workspace flips it public, and sharing an
already-public current workspace changes nothing. -/
theorem c7_witness :
    PagesCtx.Workspace.isPublic { exWs1 with isPublic := true } = true ∧
    PagesCtx.copyShareLink true
        { exState with currentWorkspace := some { exWs1 with isPublic := true } } =
      { exState with currentWorkspace := some { exWs1 with isPublic := true } } := by
  constructor
  · have h := (c7_share_flips_public exState).1 exWs1 rfl
    exact (h.2 (by decide)) { exWs1 with isPublic := true }
      (by decide) (by decide)
  · have h := (c7_share_flips_public
      { exState with currentWorkspace := some { exWs1 with isPublic := true } }).1
      { exWs1 with isPublic := true } rfl
    exact h.1 (by decide)

/-- Helper: after setting the flag true on every row with the given id,
the share-view filter returns exactly those rows, now public. -/
theorem filter_toggle_true (pid : String) (l : List PagesCtx.PageRow) :
    (l.map (fun q => if q.id == pid then { q with isPublic := true }
        else q)).filter (fun q => q.id == pid && q.isPublic) =
      (l.filter (fun q => q.id == pid)).map
        (fun q => { q with isPublic := true }) := by
  induction l with
  | nil => rfl
  | cons a t ih =>
      by_cases h : a.id = pid <;> simp [h] <;> simpa using ih

/-- Helper: after setting the flag false on every row with the given id,
the share-view filter returns no row. -/
theorem filter_toggle_false (pid : String) (l : List PagesCtx.PageRow) :
    (l.map (fun q => if q.id == pid then { q with isPublic := false }
        else q)).filter (fun q => q.id == pid && q.isPublic) = [] := by
  induction l with
  | nil => rfl
  | cons a t ih =>
      by_cases h : a.id = pid <;> simp [h] <;> simpa using ih

/-- Claim C8 (confirmed): when the remote store holds exactly one row for
the page id, toggling the page public makes the share-view query (filter
on id and public flag, `.single()`) return that row, and toggling it back
to private makes the same query deny access (no row) — share-view access
succeeds exactly when the visibility flag is public. -/
theorem c8_toggle_share_view :
    ∀ (st : PagesCtx.AppState) (wsId pid : String)
      (r : PagesCtx.PageRow),
      st.remote.pages.filter (fun q => q.id == pid) = [r] →
      PagesCtx.fetchSharedPage
          (PagesCtx.togglePagePublic true st wsId pid true).remote pid =
        some { r with isPublic := true } ∧
      PagesCtx.fetchSharedPage
          (PagesCtx.togglePagePublic true st wsId pid false).remote pid =
        none := by
  intro st wsId pid r h
  constructor
  · have hr : (PagesCtx.togglePagePublic true st wsId pid
        true).remote.pages = st.remote.pages.map (fun q =>
          if q.id == pid then { q with isPublic := true } else q) := rfl
    simp only [PagesCtx.fetchSharedPage, hr, filter_toggle_true, h,
      List.map_cons, List.map_nil]
  · have hr : (PagesCtx.togglePagePublic true st wsId pid
        false).remote.pages = st.remote.pages.map (fun q =>
          if q.id == pid then { q with isPublic := false } else q) := rfl
    simp only [PagesCtx.fetchSharedPage, hr, filter_toggle_false]

/-- Claim C8, witness: the theorem applied at the concrete state — after
making page "p1" public the share view returns its row, after making it
private the share view returns nothing. -/
theorem c8_witness :
    PagesCtx.fetchSharedPage
        (PagesCtx.togglePagePublic true exState "w1" "p1" true).remote
        "p1" =
      some { id := "p1", workspaceId := "w1", title := "Todo", content := "body", isPublic := true } ∧
    PagesCtx.fetchSharedPage
        (PagesCtx.togglePagePublic true exState "w1" "p1" false).remote
        "p1" = none := by
  have h := c8_toggle_share_view exState "w1" "p1"
    { id := "p1", workspaceId := "w1", title := "Todo", content := "body", isPublic := false }
    (by decide)
  exact ⟨h.1, h.2⟩

/-- Helper: the remote payload of a title-only empty-string update is
empty — applying it to any row is the identity, because the payload is
built by truthiness and the empty string is falsy. -/
theorem applyItemRowUpdates_emptyTitle (r : ItemsCtx.ContentItemRow) :
    ItemsCtx.applyItemRowUpdates
      { kind := none, title := some "", content := none } r = r := by
  cases r
  simp [ItemsCtx.applyItemRowUpdates, ItemsCtx.truthy]

/-- Claim C10 (confirmed): `updateContentItem` builds its remote payload
by truthiness, so a present empty-string title is applied to the local
item (object spread) but omitted from the remote update: after updating
with a title of "" and a successful remote call, the remote rows are
entirely unchanged while the matching local item's title is "" — local
and remote diverge even though the remote call succeeds. -/
theorem c10_updateContentItem_truthiness :
    ∀ (st : ItemsCtx.AppState) (wsId itemId now : String),
      (ItemsCtx.updateContentItem true st wsId itemId
          { kind := none, title := some "", content := none }
          now).remoteItems = st.remoteItems ∧
      (∀ w ∈ (ItemsCtx.updateContentItem true st wsId itemId
          { kind := none, title := some "", content := none }
          now).workspaces, w.id = wsId →
        ∀ it ∈ w.items, it.id = itemId → it.title = "") := by
  intro st wsId itemId now
  constructor
  · have h1 : (ItemsCtx.updateContentItem true st wsId itemId
        { kind := none, title := some "", content := none }
        now).remoteItems = st.remoteItems.map (fun r =>
          if r.id == itemId && r.workspaceId == wsId then
            ItemsCtx.applyItemRowUpdates
              { kind := none, title := some "", content := none } r
          else r) := rfl
    rw [h1]
    simp only [applyItemRowUpdates_emptyTitle, ite_self]
    exact map_eq_self_of _ _ (fun a _ => rfl)
  · intro w hw hid it hit hitid
    have hW : (ItemsCtx.updateContentItem true st wsId itemId
        { kind := none, title := some "", content := none }
        now).workspaces = st.workspaces.map (fun w =>
          if w.id == wsId then
            { w with items := w.items.map (fun it =>
                if it.id == itemId then
                  ItemsCtx.applyItemUpdates
                    { kind := none, title := some "", content := none }
                    now it
                else it), updatedAt := now }
          else w) := rfl
    rw [hW] at hw
    obtain ⟨a, ha, rfl⟩ := List.mem_map.mp hw
    cases h2 : a.id == wsId with
    | false =>
        simp only [h2, Bool.false_eq_true, if_false] at hid hit
        rw [hid] at h2
        simp at h2
    | true =>
        simp only [h2, if_true] at hit
        obtain ⟨b, hb, rfl⟩ := List.mem_map.mp hit
        cases h3 : b.id == itemId with
        | true => simp [h3, ItemsCtx.applyItemUpdates]
        | false =>
            simp only [h3, Bool.false_eq_true, if_false] at hitid
            rw [hitid] at h3
            simp at h3

/-- Claim C10, witness: the theorem applied at the concrete items state —
the remote rows are unchanged (the remote title stays "Note") while the
local item's title has become the empty string. -/
theorem c10_witness :
    (ItemsCtx.updateContentItem true exStateB "w1" "i1"
        { kind := none, title := some "", content := none }
        "t1").remoteItems.map ItemsCtx.ContentItemRow.title = ["Note"] ∧
    ItemsCtx.ContentItem.title
      { exItemB with title := "", updatedAt := "t1" } = "" := by
  have h := c10_updateContentItem_truthiness exStateB "w1" "i1" "t1"
  constructor
  · rw [h.1]
    decide
  · exact h.2
      { exWsB with items := [{ exItemB with title := "", updatedAt := "t1" }], updatedAt := "t1" }
      (by decide) (by decide)
      { exItemB with title := "", updatedAt := "t1" }
      (by decide) (by decide)
